import Mathlib

/-!
Verification development for the Facebook-Marketplace-Lowballer negotiation
engine.  The definitions below are shallow embeddings of the Python sources:

* apps/api/src/services/negotiation/state_machine.py
  (class NegotiationStateMachine: start, send_offer, receive_response,
   and the private concession arithmetic _calculate_counter_offer);
* apps/api/src/agents/negotiation_strategy.py
  (StrategyTier, the STRATEGIES table's numeric fields,
   NegotiationStrategy.calculate_initial_offer, StrategySelector.select_strategy);
* apps/api/src/routers/negotiate.py (the tier-based bounds computation of
  get_negotiation_bounds);
* apps/api/src/agents/negotiation_state.py
  (NegotiationState.record_our_message, can_counter).

Numeric conventions of the embedding: Python ints are modelled as Int, Python
float arithmetic is modelled exactly over Rat (every numeric literal appearing
in the sources is a decimal fraction), Python's int(...) conversion is
truncation toward zero (pytrunc), Python's round(x, -1) is round-half-to-even
at the tens (round10), and Python truthiness of an Optional[int] / Optional
[float] value (None and 0 are falsy) is modelled explicitly (optIntTruthy,
optRatTruthy).
-/

namespace FBMLowballer

/-- Python int(q): truncation toward zero. -/
def pytrunc (q : ℚ) : ℤ := if 0 ≤ q then ⌊q⌋ else ⌈q⌉

/-- Python round-half-to-even of a rational to an integer (Python round(q)). -/
def pyround (q : ℚ) : ℤ :=
  if q - ⌊q⌋ < 1/2 then ⌊q⌋
  else if q - ⌊q⌋ > 1/2 then ⌊q⌋ + 1
  else if Even ⌊q⌋ then ⌊q⌋ else ⌊q⌋ + 1

/-- Python round(q, -1): round to the nearest multiple of 10, ties to even. -/
def round10 (q : ℚ) : ℚ := (pyround (q / 10) : ℚ) * 10

/-- Truthiness of a Python Optional[int]: None and 0 are falsy. -/
def optIntTruthy : Option ℤ → Bool
  | none => false
  | some n => n != 0

/-- Truthiness of a Python Optional[float]: None and 0.0 are falsy. -/
def optRatTruthy : Option ℚ → Bool
  | none => false
  | some x => x != 0

/-! ### State machine (services/negotiation/state_machine.py) -/

/-- Message roles stored by NegotiationStateMachine ("user" is the buyer). -/
inductive Role where
  | user
  | seller
deriving DecidableEq

/-- One entry of NegotiationStateMachine.messages. -/
structure SMMessage where
  role : Role
  content : String
  amount : Option ℤ
deriving DecidableEq

/-- The STATES list of NegotiationStateMachine. -/
inductive SMState where
  | idle
  | composing
  | sent
  | awaiting
  | countering
  | accepted
  | rejected
  | abandoned
deriving DecidableEq

/-- The string name of a state, as it appears in raised error messages. -/
def SMState.name : SMState → String
  | .idle => "idle"
  | .composing => "composing"
  | .sent => "sent"
  | .awaiting => "awaiting"
  | .countering => "countering"
  | .accepted => "accepted"
  | .rejected => "rejected"
  | .abandoned => "abandoned"

/-- Mutable fields of NegotiationStateMachine.  asking_price is
listing.price_value or 0 (an int), max_budget the constructor argument. -/
structure NegotiationStateMachine where
  asking_price : ℤ
  max_budget : ℤ
  current_offer : ℤ
  state : SMState
  round : ℕ
  messages : List SMMessage
deriving DecidableEq

/-- Concession rates table of _calculate_counter_offer. -/
def concession_rates : List ℚ := [1/2, 2/5, 3/10, 1/5, 3/20]

/-- Rate selected for a given round: concession_rates[min(round - 1, 4)].
For round = 0 Python computes min(-1, 4) = -1 and negative indexing yields the
last element 0.15; every session reaching this code has round at least 1. -/
def concessionRate (round : ℕ) : ℚ :=
  if round = 0 then 3/20 else (concession_rates.getD (min (round - 1) 4) 0)

/-- NegotiationStateMachine._calculate_counter_offer, with the fields it reads
from self (asking_price, current_offer, round) made explicit arguments. -/
def calculateCounterOffer (asking_price : ℤ) (current_offer : ℤ) (round : ℕ)
    (seller_counter : ℤ) : ℤ :=
  let rate := concessionRate round
  let gap : ℚ := (seller_counter : ℚ) - (current_offer : ℚ)
  let concession := gap * rate
  let new_offer : ℚ := (current_offer : ℚ) + concession
  let new_offer :=
    if |(seller_counter : ℚ) - new_offer| < (asking_price : ℚ) * (5/100) then
      ((seller_counter : ℚ) + new_offer) / 2
    else new_offer
  pytrunc new_offer

/-- Result dictionary returned by start(). -/
structure StartResult where
  state : SMState
  suggested_offer : ℤ
  round : ℕ
deriving DecidableEq

/-- NegotiationStateMachine.start: from idle only, sets the opening offer to
int(asking_price * 0.65), round 1, state composing.  (The generated message
text comes from the external LLM collaborator and is not modelled.) -/
def start (m : NegotiationStateMachine) :
    Except String (NegotiationStateMachine × StartResult) :=
  if m.state ≠ SMState.idle then
    Except.error ("Cannot start from state: " ++ m.state.name)
  else
    let offer := pytrunc ((m.asking_price : ℚ) * (65/100))
    let m1 := { m with current_offer := offer, state := SMState.composing,
                       round := 1 }
    Except.ok (m1, ⟨SMState.composing, offer, 1⟩)

/-- NegotiationStateMachine.send_offer: from composing only; records the buyer
message, overwrites current_offer and moves straight to awaiting. -/
def send_offer (m : NegotiationStateMachine) (offer : ℤ) (message : String) :
    Except String NegotiationStateMachine :=
  if m.state ≠ SMState.composing then
    Except.error ("Cannot send offer from state: " ++ m.state.name)
  else
    Except.ok { m with
      current_offer := offer,
      messages := m.messages ++ [⟨Role.user, message, some offer⟩],
      state := SMState.awaiting }

/-- Result dictionary returned by receive_response; only the fields the
negotiation logic produces are kept (suggested message text is external). -/
structure ReceiveResult where
  state : SMState
  recommended_action : String
  suggested_offer : Option ℤ
  round : Option ℕ
deriving DecidableEq

/-- NegotiationStateMachine.receive_response.  The intent tag is produced by
the external response-analysis collaborator (_analyze_response); it is passed
in here as a string, exactly as the code compares it.  Note the Python guard
on the counter branch is (intent == "counter" and seller_counter), so a
missing or zero counter falls through to the clarify branch. -/
def receive_response (m : NegotiationStateMachine) (intent : String)
    (seller_message : String) (seller_counter : Option ℤ) :
    Except String (NegotiationStateMachine × ReceiveResult) :=
  if m.state ≠ SMState.awaiting then
    Except.error ("Cannot receive response from state: " ++ m.state.name)
  else
    let m1 := { m with
      messages := m.messages ++ [⟨Role.seller, seller_message, seller_counter⟩] }
    if intent = "acceptance" then
      Except.ok ({ m1 with state := SMState.accepted },
                 ⟨SMState.accepted, "accept", none, none⟩)
    else if intent = "rejection" then
      Except.ok ({ m1 with state := SMState.rejected },
                 ⟨SMState.rejected, "walk_away", none, none⟩)
    else if intent = "counter" ∧ optIntTruthy seller_counter then
      let sc := seller_counter.getD 0
      let m2 := { m1 with state := SMState.countering, round := m1.round + 1 }
      let new_offer :=
        calculateCounterOffer m.asking_price m.current_offer (m.round + 1) sc
      if new_offer > m.max_budget then
        if (sc : ℚ) ≤ (m.max_budget : ℚ) * (105/100) then
          Except.ok (m2, ⟨SMState.countering, "final_offer",
                          some m.max_budget, some (m.round + 1)⟩)
        else
          Except.ok ({ m2 with state := SMState.abandoned },
                     ⟨SMState.abandoned, "walk_away", none, none⟩)
      else
        Except.ok (m2, ⟨SMState.countering, "counter",
                        some new_offer, some (m.round + 1)⟩)
    else
      Except.ok (m1, ⟨m.state, "clarify", none, none⟩)

/-! ### Strategy selection (agents/negotiation_strategy.py) -/

/-- StrategyTier enum. -/
inductive StrategyTier where
  | shrewd
  | moderate
  | lenient
  | accept
deriving DecidableEq

/-- The initial_offer_pct field of each entry of the STRATEGIES table. -/
def initial_offer_pct : StrategyTier → ℚ
  | .shrewd => 1/2
  | .moderate => 7/10
  | .lenient => 17/20
  | .accept => 1

/-- NegotiationStrategy.calculate_initial_offer:
round(asking_price * initial_offer_pct, -1). -/
def calculate_initial_offer (tier : StrategyTier) (asking_price : ℚ) : ℚ :=
  round10 (asking_price * initial_offer_pct tier)

/-- The listing-age adjustment block at the end of select_strategy, acting on
the base tier.  Python truthiness: a present age of 0 disables both branches
because of the (listing_age_days and ...) guards. -/
def age_adjust (listing_age_days : Option ℤ) (base : StrategyTier) :
    StrategyTier :=
  match listing_age_days with
  | none => base
  | some d =>
    if d ≠ 0 ∧ d > 14 then
      match base with
      | .lenient => .moderate
      | .moderate => .shrewd
      | t => t
    else if d ≠ 0 ∧ d < 2 then
      match base with
      | .shrewd => .moderate
      | t => t
    else base

/-- StrategySelector.select_strategy, returning the tier of the strategy it
picks.  deal_rating is the raw string the code compares against "HOT", "PASS"
and "FAIR"; a user override (already parsed to a valid tier) wins outright. -/
def select_strategy (asking_price market_avg : ℚ) (deal_rating : String)
    (listing_age_days : Option ℤ) (user_override : Option StrategyTier) :
    StrategyTier :=
  match user_override with
  | some t => t
  | none =>
    let discount_pct :=
      if market_avg > 0 then (market_avg - asking_price) / market_avg else 0
    if deal_rating = "HOT" ∨ discount_pct > 2/5 then
      StrategyTier.accept
    else
      let base :=
        if deal_rating = "PASS" ∨ discount_pct < 1/10 then StrategyTier.shrewd
        else if deal_rating = "FAIR" ∨ discount_pct < 1/5 then
          StrategyTier.moderate
        else StrategyTier.lenient
      age_adjust listing_age_days base

/-- Aggressiveness scale on tiers, defined so that a lower opening offer
percentage is more aggressive (shrewd 0.50 > moderate 0.70 > lenient 0.85 >
accept 1.0 in aggressiveness). -/
def aggressiveness : StrategyTier → ℕ
  | .accept => 0
  | .lenient => 1
  | .moderate => 2
  | .shrewd => 3

/-! ### Tier-based bounds preview (routers/negotiate.py, get_negotiation_bounds) -/

/-- Fields of NegotiationBoundsResponse computed by the bounds endpoint. -/
structure Bounds where
  initial_offer : ℚ
  target_price : ℚ
  walk_away_price : ℚ
deriving DecidableEq

/-- The price-bound computation of get_negotiation_bounds, given the selected
strategy tier: per-tier walk-away and target, the accept-tier override of the
initial offer, the negotiation-room repair, and the asking-price clamp. -/
def get_negotiation_bounds (asking_price : ℚ) (tier : StrategyTier) : Bounds :=
  let initial_offer := calculate_initial_offer tier asking_price
  let triple :=
    match tier with
    | .accept => (asking_price, asking_price, asking_price)
    | .shrewd => (asking_price * (3/4), asking_price * (3/5), initial_offer)
    | .moderate => (asking_price * (9/10), asking_price * (4/5), initial_offer)
    | .lenient => (asking_price * (19/20), asking_price * (9/10), initial_offer)
  let walk_away := triple.1
  let target_price := triple.2.1
  let initial_offer := triple.2.2
  let walk_away :=
    if walk_away ≤ initial_offer then initial_offer * (6/5) else walk_away
  let walk_away := min walk_away asking_price
  ⟨initial_offer, target_price, walk_away⟩

/-! ### Conversation tracker (agents/negotiation_state.py) -/

/-- One entry of NegotiationState.message_history. -/
structure AgentMessage where
  role : String
  content : String
  offer_amount : Option ℚ
deriving DecidableEq

/-- The offer-tracking fields of NegotiationState. -/
structure AgentNegotiationState where
  message_history : List AgentMessage
  messages_sent : ℕ
  our_initial_offer : Option ℚ
  our_last_offer : Option ℚ
  seller_last_offer : Option ℚ
deriving DecidableEq

/-- NegotiationState.record_our_message: appends the buyer message and bumps
messages_sent; the offer fields are updated only under Python truthiness of
the offer (None and 0 are both falsy). -/
def record_our_message (s : AgentNegotiationState) (content : String)
    (offer : Option ℚ) : AgentNegotiationState :=
  let s1 := { s with
    message_history := s.message_history ++ [⟨"user", content, offer⟩],
    messages_sent := s.messages_sent + 1 }
  if optRatTruthy offer then
    { s1 with
      our_initial_offer :=
        (match s1.our_initial_offer with
         | none => offer
         | some v => some v),
      our_last_offer := offer }
  else s1

/-- NegotiationState.can_counter: counts buyer messages whose offer_amount is
truthy (so a recorded amount of 0 never counts). -/
def can_counter (s : AgentNegotiationState) (max_counters : ℕ) : Bool :=
  ((s.message_history.filter
      (fun msg => msg.role == "user" && optRatTruthy msg.offer_amount)).length)
    < max_counters

/-! ### Helper lemmas -/

/-- The concession rate is always one of the five table entries. -/
theorem concessionRate_mem (round : ℕ) :
    concessionRate round = 1/2 ∨ concessionRate round = 2/5 ∨
    concessionRate round = 3/10 ∨ concessionRate round = 1/5 ∨
    concessionRate round = 3/20 := by
  by_cases h0 : round = 0
  · simp [concessionRate, h0]
  · have h : min (round - 1) 4 = 0 ∨ min (round - 1) 4 = 1 ∨
        min (round - 1) 4 = 2 ∨ min (round - 1) 4 = 3 ∨
        min (round - 1) 4 = 4 := by omega
    rcases h with h | h | h | h | h <;>
      simp [concessionRate, h0, h, concession_rates]

/-- The concession rate lies strictly between 0 and 1. -/
theorem concessionRate_bounds (round : ℕ) :
    0 < concessionRate round ∧ concessionRate round < 1 := by
  rcases concessionRate_mem round with h | h | h | h | h <;> rw [h] <;>
    constructor <;> norm_num

/-- Rounding to the nearest ten preserves nonnegativity. -/
theorem round10_nonneg (q : ℚ) (hq : 0 ≤ q) : 0 ≤ round10 q := by
  have hf : (0 : ℤ) ≤ ⌊q / 10⌋ := by
    apply Int.floor_nonneg.mpr
    positivity
  have hp : (0 : ℤ) ≤ pyround (q / 10) := by
    unfold pyround
    split_ifs <;> omega
  unfold round10
  have : (0 : ℚ) ≤ (pyround (q / 10) : ℚ) := by exact_mod_cast hp
  nlinarith

/-! ### Claim theorems -/

/-- C4: the concession arithmetic reproduces the worked examples of the spec
exactly: from 850 against a counter of 950 at round 1 the next offer is 900
(the convergence test 50 < 50 does not fire), and from 900 against 930 at
round 2 it is 921 (raw 912, convergence fires, midpoint 921). -/
theorem worked_examples_exact :
    calculateCounterOffer 1000 850 1 950 = 900 ∧
    calculateCounterOffer 1000 900 2 930 = 921 := by
  have hr1 : concessionRate 1 = 1/2 := by
    norm_num [concessionRate, concession_rates, Nat.min_def]
  have hr2 : concessionRate 2 = 2/5 := by
    norm_num [concessionRate, concession_rates, Nat.min_def]
  constructor
  · simp only [calculateCounterOffer, hr1]
    norm_num [pytrunc]
  · simp only [calculateCounterOffer, hr2]
    norm_num [pytrunc]

/-- C2 counterexample: send_offer invoked in state countering is rejected,
although the claim says Countering is a valid source state for it. -/
theorem send_offer_from_countering_rejected :
    send_offer ⟨1000, 900, 850, SMState.countering, 2, []⟩ 860 "msg" =
      Except.error "Cannot send offer from state: countering" := by
  rfl

/-- C2 (amended): send_offer succeeds exactly when the state is composing, in
which case it appends the buyer message carrying the amount, sets
current_offer to the amount and moves directly to awaiting; from every other
state, countering included, it fails with the invalid-transition error and
mutates nothing. -/
theorem send_offer_composing_only (m : NegotiationStateMachine) (offer : ℤ)
    (msg : String) :
    (m.state = SMState.composing →
      send_offer m offer msg = Except.ok { m with
        current_offer := offer,
        messages := m.messages ++ [⟨Role.user, msg, some offer⟩],
        state := SMState.awaiting }) ∧
    (m.state ≠ SMState.composing →
      send_offer m offer msg =
        Except.error ("Cannot send offer from state: " ++ m.state.name)) := by
  constructor <;> intro h <;> simp [send_offer, h]

/-- C2 witness: a machine in composing state successfully records the offer. -/
theorem send_offer_composing_only_witness :
    send_offer ⟨1000, 900, 0, SMState.composing, 1, []⟩ 650 "hi" =
      Except.ok { (⟨1000, 900, 0, SMState.composing, 1, []⟩ :
          NegotiationStateMachine) with
        current_offer := 650,
        messages := [] ++ [⟨Role.user, "hi", some 650⟩],
        state := SMState.awaiting } :=
  (send_offer_composing_only ⟨1000, 900, 0, SMState.composing, 1, []⟩
    650 "hi").1 rfl

/-- C5 counterexample: receive_response from awaiting with intent counter and
no seller counter raises nothing and does mutate the session: the seller
message is appended and a clarify recommendation is returned. -/
theorem missing_counter_clarifies_not_rejected :
    receive_response ⟨1000, 900, 850, SMState.awaiting, 1, []⟩
        "counter" "hmm" none =
      Except.ok (⟨1000, 900, 850, SMState.awaiting, 1,
                   [⟨Role.seller, "hmm", none⟩]⟩,
                 ⟨SMState.awaiting, "clarify", none, none⟩) ∧
    ([⟨Role.seller, "hmm", none⟩] : List SMMessage) ≠ [] := by
  constructor
  · rfl
  · simp

/-- C5 (amended): receive_response from awaiting with intent counter but no
seller counter value succeeds with a clarify recommendation: the seller
message is appended, while state, round and current_offer stay unchanged. -/
theorem counter_without_amount_clarifies (m : NegotiationStateMachine)
    (msg : String) (h : m.state = SMState.awaiting) :
    receive_response m "counter" msg none =
      Except.ok ({ m with messages := m.messages ++ [⟨Role.seller, msg, none⟩] },
                 ⟨SMState.awaiting, "clarify", none, none⟩) := by
  simp [receive_response, h, optIntTruthy]

/-- C5 witness: a concrete awaiting session falls through to clarify. -/
theorem counter_without_amount_clarifies_witness :
    receive_response ⟨500, 400, 300, SMState.awaiting, 2, []⟩ "counter" "ok"
        none =
      Except.ok ({ (⟨500, 400, 300, SMState.awaiting, 2, []⟩ :
          NegotiationStateMachine) with
        messages := [] ++ [⟨Role.seller, "ok", none⟩] },
                 ⟨SMState.awaiting, "clarify", none, none⟩) :=
  counter_without_amount_clarifies ⟨500, 400, 300, SMState.awaiting, 2, []⟩
    "ok" rfl

/-- C8 counterexample: a present listing age of 0 is below 2, yet a shrewd
base tier is not stepped down to moderate: Python's truthiness guard skips
the age adjustment entirely when the age is 0. -/
theorem age_zero_not_adjusted :
    select_strategy 95 100 "PASS" (some 0) none = StrategyTier.shrewd ∧
    StrategyTier.shrewd ≠ StrategyTier.moderate := by
  constructor
  · norm_num [select_strategy, age_adjust]
    intro h
    exact absurd h (by decide)
  · simp

/-- C8 (amended): with a present age, a zero age applies no adjustment at
all; a nonzero age below 2 steps shrewd down to moderate and leaves every
other tier unchanged; an age above 14 steps one tier more aggressive
(lenient to moderate, moderate to shrewd, shrewd unchanged); in each case
exactly one step is applied regardless of magnitude. -/
theorem age_adjustment_steps (b : StrategyTier) (d : ℤ) :
    (age_adjust (some 0) b = b) ∧
    (d ≠ 0 → d < 2 → age_adjust (some d) b =
      (if b = StrategyTier.shrewd then StrategyTier.moderate else b)) ∧
    (d > 14 → age_adjust (some d) b =
      (match b with
       | StrategyTier.lenient => StrategyTier.moderate
       | StrategyTier.moderate => StrategyTier.shrewd
       | t => t)) := by
  refine ⟨by simp [age_adjust], fun h1 h2 => ?_, fun h3 => ?_⟩
  · have hn : ¬(d ≠ 0 ∧ d > 14) := by omega
    have hy : d ≠ 0 ∧ d < 2 := ⟨h1, h2⟩
    cases b <;> simp only [age_adjust, if_neg hn, if_pos hy] <;> rfl
  · have hy : d ≠ 0 ∧ d > 14 := ⟨by omega, h3⟩
    cases b <;> simp only [age_adjust, if_pos hy]

/-- C8 witness: age 1 steps shrewd down to moderate, age 15 steps lenient up
to moderate. -/
theorem age_adjustment_steps_witness :
    age_adjust (some 1) StrategyTier.shrewd = StrategyTier.moderate ∧
    age_adjust (some 15) StrategyTier.lenient = StrategyTier.moderate := by
  constructor
  · have h := (age_adjustment_steps StrategyTier.shrewd 1).2.1
      (by decide) (by decide)
    simpa using h
  · have h := (age_adjustment_steps StrategyTier.lenient 15).2.2 (by decide)
    simpa using h

/-- C10: recording a buyer message with an offer amount of exactly 0 appends
the message and increments messages_sent, but leaves our_initial_offer and
our_last_offer unchanged, and never counts toward the can_counter limit. -/
theorem zero_offer_message_not_counted (s : AgentNegotiationState)
    (content : String) (k : ℕ) :
    (record_our_message s content (some 0)).message_history =
      s.message_history ++ [⟨"user", content, some 0⟩] ∧
    (record_our_message s content (some 0)).messages_sent =
      s.messages_sent + 1 ∧
    (record_our_message s content (some 0)).our_initial_offer =
      s.our_initial_offer ∧
    (record_our_message s content (some 0)).our_last_offer =
      s.our_last_offer ∧
    can_counter (record_our_message s content (some 0)) k = can_counter s k := by
  refine ⟨?_, ?_, ?_, ?_, ?_⟩ <;>
    simp [record_our_message, can_counter, optRatTruthy, List.filter_append]

/-- C9: for a nonnegative current offer, a seller counter at or above it, any
round at least 1 and a positive asking price, the next offer the concession
engine computes lies between the current offer and the seller counter
inclusive, truncation included. -/
theorem next_offer_between (asking current : ℤ) (round : ℕ) (seller : ℤ)
    (hc : 0 ≤ current) (hs : current ≤ seller) (hr : 1 ≤ round)
    (ha : 0 < asking) :
    current ≤ calculateCounterOffer asking current round seller ∧
    calculateCounterOffer asking current round seller ≤ seller := by
  obtain ⟨hr0, hr1⟩ := concessionRate_bounds round
  have hcq : (current : ℚ) ≤ (seller : ℚ) := by exact_mod_cast hs
  have hgap : (0 : ℚ) ≤ (seller : ℚ) - (current : ℚ) := by linarith
  have hprod : (0 : ℚ) ≤ ((seller : ℚ) - (current : ℚ)) * concessionRate round :=
    mul_nonneg hgap hr0.le
  have hprod2 : (0 : ℚ) ≤
      ((seller : ℚ) - (current : ℚ)) * (1 - concessionRate round) :=
    mul_nonneg hgap (by linarith)
  have hrawlo : (current : ℚ) ≤
      (current : ℚ) + ((seller : ℚ) - (current : ℚ)) * concessionRate round := by
    linarith
  have hrawhi : (current : ℚ) + ((seller : ℚ) - (current : ℚ)) *
      concessionRate round ≤ (seller : ℚ) := by nlinarith
  have key : ∀ v : ℚ, (current : ℚ) ≤ v → v ≤ (seller : ℚ) →
      current ≤ pytrunc v ∧ pytrunc v ≤ seller := by
    intro v h1 h2
    have hv0 : (0 : ℚ) ≤ v := le_trans (by exact_mod_cast hc) h1
    rw [pytrunc, if_pos hv0]
    refine ⟨Int.le_floor.mpr h1, ?_⟩
    have h3 := Int.floor_mono h2
    simpa using h3
  simp only [calculateCounterOffer]
  apply key
  · split_ifs with hcond
    · linarith
    · exact hrawlo
  · split_ifs with hcond
    · linarith
    · exact hrawhi

/-- C9 witness: the first worked example stays between 850 and 950. -/
theorem next_offer_between_witness :
    (850 : ℤ) ≤ calculateCounterOffer 1000 850 1 950 ∧
    calculateCounterOffer 1000 850 1 950 ≤ 950 :=
  next_offer_between 1000 850 1 950 (by norm_num) (by norm_num) (by norm_num)
    (by norm_num)

/-- C3 counterexample: with current offer 900, seller counter 930 and asking
price 1000 the two sides are within 5% of asking (30 < 50), yet next_offer is
922 at round 1 and 921 at round 2: neither equals the plain midpoint 915 of
seller counter and current offer, and the result depends on the round. -/
theorem convergence_not_plain_midpoint :
    calculateCounterOffer 1000 900 1 930 = 922 ∧
    calculateCounterOffer 1000 900 2 930 = 921 ∧
    (922 : ℤ) ≠ 915 ∧ (921 : ℤ) ≠ 915 := by
  have hq1 : concessionRate 1 = 1/2 := by
    norm_num [concessionRate, concession_rates, Nat.min_def]
  have hq2 : concessionRate 2 = 2/5 := by
    norm_num [concessionRate, concession_rates, Nat.min_def]
  refine ⟨?_, ?_, by norm_num, by norm_num⟩
  · simp only [calculateCounterOffer, hq1]
    norm_num [pytrunc]
  · simp only [calculateCounterOffer, hq2]
    norm_num [pytrunc]

/-- C3 (amended): when seller_counter and current_offer are already within 5%
of asking_price of each other, the convergence rule does fire for every round,
but the value returned is the truncated midpoint of the seller counter and the
raw concession offer current + (seller - current) * rate(round), so it still
depends on the round through the concession rate. -/
theorem converged_offer_splits_raw_difference (asking current : ℤ)
    (round : ℕ) (seller : ℤ) (hr : 1 ≤ round)
    (hnear : |(seller : ℚ) - (current : ℚ)| < (asking : ℚ) * (5/100)) :
    calculateCounterOffer asking current round seller =
      pytrunc (((seller : ℚ) + ((current : ℚ) +
        ((seller : ℚ) - (current : ℚ)) * concessionRate round)) / 2) := by
  obtain ⟨hr0, hr1⟩ := concessionRate_bounds round
  have hcond : |(seller : ℚ) - ((current : ℚ) +
      ((seller : ℚ) - (current : ℚ)) * concessionRate round)| <
      (asking : ℚ) * (5/100) := by
    have heq : (seller : ℚ) - ((current : ℚ) +
        ((seller : ℚ) - (current : ℚ)) * concessionRate round) =
        ((seller : ℚ) - (current : ℚ)) * (1 - concessionRate round) := by ring
    rw [heq, abs_mul, abs_of_nonneg (by linarith : (0:ℚ) ≤ 1 - concessionRate round)]
    calc |(seller : ℚ) - (current : ℚ)| * (1 - concessionRate round)
        ≤ |(seller : ℚ) - (current : ℚ)| * 1 :=
          mul_le_mul_of_nonneg_left (by linarith) (abs_nonneg _)
      _ = |(seller : ℚ) - (current : ℚ)| := mul_one _
      _ < (asking : ℚ) * (5/100) := hnear
  simp only [calculateCounterOffer, if_pos hcond]

/-- C3 witness: at round 2 the converged offer splits the raw difference. -/
theorem converged_offer_splits_raw_difference_witness :
    calculateCounterOffer 1000 900 2 930 =
      pytrunc (((930 : ℚ) + ((900 : ℚ) +
        ((930 : ℚ) - (900 : ℚ)) * concessionRate 2)) / 2) := by
  have h := converged_offer_splits_raw_difference 1000 900 2 930 (by norm_num)
    (by norm_num)
  simpa using h

/-- C6 counterexample: at asking price 6 with the lenient tier, the rounded
initial offer is 10, the repaired walk-away 12 is clamped back to the asking
price 6, and the advertised invariant walk_away >= initial_offer fails. -/
theorem tiny_price_walk_away_below_initial :
    (get_negotiation_bounds 6 StrategyTier.lenient).initial_offer = 10 ∧
    (get_negotiation_bounds 6 StrategyTier.lenient).walk_away_price = 6 ∧
    ¬((10 : ℚ) ≤ 6) := by
  have h10 : calculate_initial_offer StrategyTier.lenient 6 = 10 := by
    norm_num [calculate_initial_offer, initial_offer_pct, round10, pyround]
  refine ⟨?_, ?_, by norm_num⟩ <;>
    simp only [get_negotiation_bounds, h10] <;>
    norm_num [min_def]

/-- C6 (amended): whenever the rounded initial offer does not already exceed
the asking price, the tier-based preview bounds satisfy
walk_away_price >= initial_offer after the repair and clamp steps; the repair
can be defeated only when rounding pushes the initial offer above the asking
price itself, as happens for tiny asking prices. -/
theorem bounds_walk_away_ge_initial (a : ℚ) (t : StrategyTier) (ha : 0 < a)
    (hi : (get_negotiation_bounds a t).initial_offer ≤ a) :
    (get_negotiation_bounds a t).initial_offer ≤
      (get_negotiation_bounds a t).walk_away_price := by
  have hrep : ∀ io w : ℚ, 0 ≤ io → io ≤ a →
      io ≤ min (if w ≤ io then io * (6/5) else w) a := by
    intro io w h0 hia
    refine le_min ?_ hia
    split_ifs with hw
    · linarith
    · linarith [not_le.mp hw]
  cases t with
  | accept =>
    simp only [get_negotiation_bounds, calculate_initial_offer,
      initial_offer_pct]
    rw [if_pos (le_refl a)]
    exact le_min (by linarith) (le_refl a)
  | shrewd =>
    simp only [get_negotiation_bounds, calculate_initial_offer,
      initial_offer_pct] at hi ⊢
    exact hrep _ _ (round10_nonneg _ (by positivity)) hi
  | moderate =>
    simp only [get_negotiation_bounds, calculate_initial_offer,
      initial_offer_pct] at hi ⊢
    exact hrep _ _ (round10_nonneg _ (by positivity)) hi
  | lenient =>
    simp only [get_negotiation_bounds, calculate_initial_offer,
      initial_offer_pct] at hi ⊢
    exact hrep _ _ (round10_nonneg _ (by positivity)) hi

/-- C6 witness: at asking price 1000 the lenient preview keeps the invariant. -/
theorem bounds_walk_away_ge_initial_witness :
    (get_negotiation_bounds 1000 StrategyTier.lenient).initial_offer ≤
      (get_negotiation_bounds 1000 StrategyTier.lenient).walk_away_price :=
  bounds_walk_away_ge_initial 1000 StrategyTier.lenient (by norm_num)
    (by norm_num [get_negotiation_bounds, calculate_initial_offer,
      initial_offer_pct, round10, pyround])

/-- C1 counterexample: a session at current offer 880 with budget 900 that
receives a counter of 940 takes the final-offer branch (computed offer 922
exceeds the budget and 940 is within 105% of it): the suggested offer is the
budget 900, but current_offer is left at 880, not set to the ceiling. -/
theorem final_offer_does_not_set_current_offer :
    receive_response ⟨1000, 900, 880, SMState.awaiting, 1, []⟩ "counter" "msg"
        (some 940) =
      Except.ok (⟨1000, 900, 880, SMState.countering, 2,
                   [⟨Role.seller, "msg", some 940⟩]⟩,
                 ⟨SMState.countering, "final_offer", some 900, some 2⟩) ∧
    (880 : ℤ) ≠ 900 := by
  have hq2 : concessionRate 2 = 2/5 := by
    norm_num [concessionRate, concession_rates, Nat.min_def]
  have hco : calculateCounterOffer 1000 880 2 940 = 922 := by
    simp only [calculateCounterOffer, hq2]
    norm_num [pytrunc]
  refine ⟨?_, by norm_num⟩
  simp only [receive_response, optIntTruthy]
  norm_num [hco]
  simp

/-- C1 (amended): on any receive_response call that lands in the countering
state, the session's current_offer is left unchanged (an offer is only
committed by a later send_offer); the suggested offer returned on that path
never exceeds max_budget, and in the final-offer branch it is exactly
max_budget, never above it. -/
theorem countering_suggestion_capped (m mm : NegotiationStateMachine)
    (intent seller_message : String) (seller_counter : Option ℤ)
    (rr : ReceiveResult)
    (h : receive_response m intent seller_message seller_counter =
      Except.ok (mm, rr))
    (hcs : mm.state = SMState.countering) :
    mm.current_offer = m.current_offer ∧
    (∀ v, rr.suggested_offer = some v → v ≤ m.max_budget) ∧
    (rr.recommended_action = "final_offer" →
      rr.suggested_offer = some m.max_budget) := by
  simp only [receive_response] at h
  split at h
  · exact Except.noConfusion h
  · rename_i hst
    rw [not_not] at hst
    split at h
    · simp only [Except.ok.injEq, Prod.mk.injEq] at h
      obtain ⟨h1, h2⟩ := h
      subst h1
      simp at hcs
    · split at h
      · simp only [Except.ok.injEq, Prod.mk.injEq] at h
        obtain ⟨h1, h2⟩ := h
        subst h1
        simp at hcs
      · split at h
        · split at h
          · split at h
            · -- final-offer branch
              simp only [Except.ok.injEq, Prod.mk.injEq] at h
              obtain ⟨h1, h2⟩ := h
              subst h1
              subst h2
              refine ⟨rfl, ?_, fun _ => rfl⟩
              intro v hv
              simp only [Option.some.injEq] at hv
              exact le_of_eq hv.symm
            · -- abandoned branch
              simp only [Except.ok.injEq, Prod.mk.injEq] at h
              obtain ⟨h1, h2⟩ := h
              subst h1
              simp at hcs
          · -- ordinary counter branch
            rename_i hbudget
            simp only [Except.ok.injEq, Prod.mk.injEq] at h
            obtain ⟨h1, h2⟩ := h
            subst h1
            subst h2
            refine ⟨rfl, ?_, fun habs => absurd habs (by simp)⟩
            intro v hv
            simp only [Option.some.injEq] at hv
            have := not_lt.mp hbudget
            omega
        · -- clarify branch
          simp only [Except.ok.injEq, Prod.mk.injEq] at h
          obtain ⟨h1, h2⟩ := h
          subst h1
          simp only [hst] at hcs
          simp at hcs

/-- C1 witness: an ordinary counter within budget lands in countering with an
unchanged current offer and a suggestion below the budget. -/
theorem countering_suggestion_capped_witness :
    (⟨1000, 2000, 850, SMState.countering, 2,
        [⟨Role.seller, "msg", some 950⟩]⟩ :
      NegotiationStateMachine).current_offer =
      (⟨1000, 2000, 850, SMState.awaiting, 1, []⟩ :
        NegotiationStateMachine).current_offer ∧
    (∀ v, (⟨SMState.countering, "counter", some 890, some 2⟩ :
        ReceiveResult).suggested_offer = some v →
      v ≤ (⟨1000, 2000, 850, SMState.awaiting, 1, []⟩ :
        NegotiationStateMachine).max_budget) ∧
    ((⟨SMState.countering, "counter", some 890, some 2⟩ :
        ReceiveResult).recommended_action = "final_offer" →
      (⟨SMState.countering, "counter", some 890, some 2⟩ :
          ReceiveResult).suggested_offer =
        some (⟨1000, 2000, 850, SMState.awaiting, 1, []⟩ :
          NegotiationStateMachine).max_budget) := by
  apply countering_suggestion_capped
    ⟨1000, 2000, 850, SMState.awaiting, 1, []⟩ _ "counter" "msg" (some 950)
  · have hq2 : concessionRate 2 = 2/5 := by
      norm_num [concessionRate, concession_rates, Nat.min_def]
    have hco : calculateCounterOffer 1000 850 2 950 = 890 := by
      simp only [calculateCounterOffer, hq2]
      norm_num [pytrunc]
    simp only [receive_response, optIntTruthy]
    norm_num [hco]
    simp
  · rfl

/-- Aggressiveness is bounded by the shrewd tier's value. -/
theorem aggressiveness_le_three (t : StrategyTier) : aggressiveness t ≤ 3 := by
  cases t <;> simp [aggressiveness]

/-- The aggressiveness scale matches the opening-offer percentages of the
STRATEGIES table: strictly more aggressive means a strictly lower opening
percentage. -/
theorem aggressiveness_vs_offer_pct (t1 t2 : StrategyTier) :
    aggressiveness t1 < aggressiveness t2 ↔
      initial_offer_pct t2 < initial_offer_pct t1 := by
  cases t1 <;> cases t2 <;>
    simp [aggressiveness, initial_offer_pct] <;> norm_num

/-- The listing-age adjustment never swaps the relative aggressiveness of two
base tiers. -/
theorem age_adjust_mono (age : Option ℤ) (b1 b2 : StrategyTier)
    (h : aggressiveness b1 ≤ aggressiveness b2) :
    aggressiveness (age_adjust age b1) ≤ aggressiveness (age_adjust age b2) := by
  cases age with
  | none => simpa [age_adjust] using h
  | some d =>
    by_cases h14 : d ≠ 0 ∧ d > 14
    · simp only [age_adjust, if_pos h14]
      revert h
      cases b1 <;> cases b2 <;> decide
    · by_cases h2 : d ≠ 0 ∧ d < 2
      · simp only [age_adjust, if_neg h14, if_pos h2]
        revert h
        cases b1 <;> cases b2 <;> decide
      · simpa only [age_adjust, if_neg h14, if_neg h2] using h

/-- C7 counterexample: with market average 100, rating GOOD and no age signal,
asking price 95 selects the shrewd tier while the lower asking price 50
selects the accept tier, which is strictly less aggressive: lowering the
asking price can move the selection toward a less aggressive tier. -/
theorem lower_price_less_aggressive_tier :
    select_strategy 95 100 "GOOD" none none = StrategyTier.shrewd ∧
    select_strategy 50 100 "GOOD" none none = StrategyTier.accept ∧
    aggressiveness StrategyTier.accept < aggressiveness StrategyTier.shrewd := by
  refine ⟨?_, ?_, by decide⟩
  · norm_num [select_strategy, age_adjust]
    intro h
    exact absurd h (by decide)
  · norm_num [select_strategy]

/-- C7 (amended): for fixed market average, rating, listing age and override,
decreasing the asking price (increasing the discount) never moves the
selected tier toward a MORE aggressive one: the lower price's tier is at most
as aggressive as the higher price's tier. -/
theorem tier_not_more_aggressive_at_lower_price (market : ℚ) (rating : String)
    (age : Option ℤ) (ov : Option StrategyTier) (p1 p2 : ℚ)
    (hp2 : 0 < p2) (hlt : p2 < p1) :
    aggressiveness (select_strategy p2 market rating age ov) ≤
      aggressiveness (select_strategy p1 market rating age ov) := by
  cases ov with
  | some t => simp [select_strategy]
  | none =>
    by_cases hm : market > 0
    · have hdlt : (market - p1) / market < (market - p2) / market := by
        rw [div_eq_mul_inv, div_eq_mul_inv]
        exact mul_lt_mul_of_pos_right (by linarith) (inv_pos.mpr hm)
      simp only [select_strategy, if_pos hm]
      by_cases c2 : rating = "HOT" ∨ (market - p2) / market > 2/5
      · rw [if_pos c2]
        exact Nat.zero_le _
      · have c1 : ¬(rating = "HOT" ∨ (market - p1) / market > 2/5) := by
          push_neg at c2 ⊢
          exact ⟨c2.1, by linarith [c2.2]⟩
        rw [if_neg c2, if_neg c1]
        apply age_adjust_mono
        by_cases s1 : rating = "PASS" ∨ (market - p1) / market < 1/10
        · rw [if_pos s1]
          exact aggressiveness_le_three _
        · have s2 : ¬(rating = "PASS" ∨ (market - p2) / market < 1/10) := by
            push_neg at s1 ⊢
            exact ⟨s1.1, by linarith [s1.2]⟩
          rw [if_neg s1, if_neg s2]
          by_cases f1 : rating = "FAIR" ∨ (market - p1) / market < 1/5
          · rw [if_pos f1]
            split_ifs <;> decide
          · have f2 : ¬(rating = "FAIR" ∨ (market - p2) / market < 1/5) := by
              push_neg at f1 ⊢
              exact ⟨f1.1, by linarith [f1.2]⟩
            rw [if_neg f1, if_neg f2]
    · simp only [select_strategy, if_neg hm]
      exact le_refl _

/-- C7 witness: dropping the asking price from 95 to 90 with a GOOD rating
moves the tier from shrewd to moderate, not toward more aggressive. -/
theorem tier_not_more_aggressive_at_lower_price_witness :
    aggressiveness (select_strategy 90 100 "GOOD" none none) ≤
      aggressiveness (select_strategy 95 100 "GOOD" none none) :=
  tier_not_more_aggressive_at_lower_price 100 "GOOD" none none 95 90
    (by norm_num) (by norm_num)

end FBMLowballer
